import Mathlib

/-!
Shallow embedding of the reinforced-concrete bending-capacity calculator
(`src/Mrd.py`) over exact rationals, together with theorems settling the
specification claims about it.

Conventions of the embedding:
* Python floats become `ℚ`; the float literals `1e-3`, `1e-6`, `1e-9`, `1.8`
  of the source become the exact rationals `1/1000`, `1/1000000`,
  `1/1000000000`, `9/5`.
* The Python `for` loops accumulating sums become `List.sum` over the mapped
  lists; the bisection `for`/`break` loop and the bracket-expansion `while`
  loop become structural recursion on their (finite) iteration budgets.
* `mrd_fibers_rect` returns `Option _`: `none` models the executions in which
  the Python function raises (slice count `0` divides by zero building `dy`;
  iteration budget `0` leaves `c = None` and `section_resultants(None)`
  raises a `TypeError` at `max(c_mm, 1e-6)`).  The informative lever arm is
  `Option ℚ`, with `none` modelling the `float('nan')` sentinel.
-/

/-- Steel layer: ordinate from the compressed edge (mm) and area (mm²),
mirroring the `SteelLayer` dataclass. -/
structure SteelLayer where
  y_mm : ℚ
  As_mm2 : ℚ
deriving DecidableEq

/-- Material parameters, mirroring the `Materials` dataclass fields. -/
structure Materials where
  fck_MPa : ℚ
  fyk_MPa : ℚ
  gamma_c : ℚ
  gamma_s : ℚ
  alpha_cc : ℚ
  Es_MPa : ℚ
  eps_c2 : ℚ
  eps_cu2 : ℚ
deriving DecidableEq

/-- Design concrete strength, the `fcd` property of `Materials`. -/
def Materials.fcd (m : Materials) : ℚ :=
  m.alpha_cc * m.fck_MPa / m.gamma_c

/-- Design steel strength, the `fyd` property of `Materials`. -/
def Materials.fyd (m : Materials) : ℚ :=
  m.fyk_MPa / m.gamma_s

/-- The default field values of the `Materials` dataclass. -/
def defaultMaterials : Materials :=
  Materials.mk 30 500 (3/2) (23/20) (17/20) 200000 (1/500) (7/2000)

/-- Concrete stress (MPa), EC-2 parabola-rectangle diagram with exponent 2,
mirroring `sigma_c_ec2` in the source. -/
def sigma_c_ec2 (eps_c fcd eps_c2 eps_cu2 : ℚ) : ℚ :=
  if eps_c ≤ 0 then 0
  else if eps_c ≤ eps_c2 then
    let eta := eps_c / eps_c2
    fcd * (1 - (1 - eta)^2)
  else if eps_c ≤ eps_cu2 then fcd
  else 0

/-- Reference concrete law, written from the specification text: 0 for
strain ≤ 0; the parabola for 0 < strain ≤ eps_c2; fcd on the plateau
eps_c2 < strain ≤ eps_cu2; 0 beyond eps_cu2. -/
def sigma_c_specLaw (strain fcd eps_c2 eps_cu2 : ℚ) : ℚ :=
  if strain ≤ 0 then 0
  else if strain ≤ eps_c2 then fcd * (1 - (1 - strain / eps_c2)^2)
  else if strain ≤ eps_cu2 then fcd
  else 0

/-- Signed steel stress (MPa), symmetric elastic-perfectly-plastic law,
mirroring `sigma_s_bilineal` in the source. -/
def sigma_s_bilineal (eps_s Es fyd : ℚ) : ℚ :=
  let sig := Es * eps_s
  if sig > fyd then fyd
  else if sig < -fyd then -fyd
  else sig

/-- Bending-sign selector: `positivo` compresses the top fiber, `negativo`
the bottom one. -/
inductive Sign where
  | positivo : Sign
  | negativo : Sign
deriving DecidableEq

/-- Ordinate reflection applied to steel layers, mirroring the inner
`map_y` of `mrd_fibers_rect`. -/
def mapY (h : ℚ) (sign : Sign) (y : ℚ) : ℚ :=
  if sign = Sign.positivo then y else h - y

/-- The fresh layer list built once per call from the caller's layers by
applying `mapY`, mirroring the `layers` list comprehension. -/
def mappedLayers (h : ℚ) (sign : Sign) (ls : List SteelLayer) : List SteelLayer :=
  ls.map (fun sl => SteelLayer.mk (mapY h sign sl.y_mm) sl.As_mm2)

/-- Concrete slice center ordinates `(i + 0.5) * dy` with `dy = h / n`,
mirroring `y_centers` in the source. -/
def y_centers (h : ℚ) (n : ℕ) : List ℚ :=
  (List.range n).map (fun i : ℕ => ((i : ℚ) + 1/2) * (h / n))

/-- Net axial force N (positive in compression), moment M about the
compressed fiber y = 0, and curvature, for a trial neutral-axis depth `c`,
mirroring the inner `section_resultants` of `mrd_fibers_rect`. -/
def section_resultants (b h : ℚ) (n : ℕ) (layers : List SteelLayer)
    (mat : Materials) (c : ℚ) : ℚ × ℚ × ℚ :=
  let dy := h / n
  let kappa := mat.eps_cu2 / max c (1/1000000)
  let Nc := ((y_centers h n).map (fun y =>
    sigma_c_ec2 (kappa * (c - y)) mat.fcd mat.eps_c2 mat.eps_cu2 * b * dy)).sum
  let Mc := ((y_centers h n).map (fun y =>
    sigma_c_ec2 (kappa * (c - y)) mat.fcd mat.eps_c2 mat.eps_cu2 * b * dy * y)).sum
  let Ns := (layers.map (fun sl =>
    sigma_s_bilineal (kappa * (c - sl.y_mm)) mat.Es_MPa mat.fyd * sl.As_mm2)).sum
  let Ms := (layers.map (fun sl =>
    sigma_s_bilineal (kappa * (c - sl.y_mm)) mat.Es_MPa mat.fyd * sl.As_mm2 * sl.y_mm)).sum
  (Nc + Ns, Mc + Ms, kappa)

/-- Reference resultant integrator, written from the specification text:
curvature `eps_cu2 / max c eps`, `n` equal slices of thickness `h/n`
centered at `(i+0.5)*h/n`, concrete force `sigma * b * (h/n)` and moment
arm `y`, steel force `sigma * area` and moment arm `y`. -/
def sectionResultantsSpec (b h : ℚ) (n : ℕ) (layers : List SteelLayer)
    (mat : Materials) (c : ℚ) : ℚ × ℚ × ℚ :=
  let kappa := mat.eps_cu2 / max c (1/1000000)
  let center := fun i : ℕ => ((i : ℚ) + 1/2) * (h / n)
  let concForce := fun i : ℕ =>
    sigma_c_ec2 (kappa * (c - center i)) mat.fcd mat.eps_c2 mat.eps_cu2 * b * (h / n)
  let steelForce := fun sl : SteelLayer =>
    sigma_s_bilineal (kappa * (c - sl.y_mm)) mat.Es_MPa mat.fyd * sl.As_mm2
  let N := Finset.sum (Finset.range n) concForce
    + (layers.map steelForce).sum
  let M := Finset.sum (Finset.range n) (fun i => concForce i * center i)
    + (layers.map (fun sl => steelForce sl * sl.y_mm)).sum
  (N, M, kappa)

/-- Net axial resultant alone. -/
def netAxial (b h : ℚ) (n : ℕ) (layers : List SteelLayer)
    (mat : Materials) (c : ℚ) : ℚ :=
  (section_resultants b h n layers mat c).1

/-- The axial-resultant function the solver bisects, already including the
sign-convention layer mapping. -/
def NfOf (b h : ℚ) (n : ℕ) (ls : List SteelLayer) (mat : Materials)
    (sign : Sign) : ℚ → ℚ :=
  fun c => netAxial b h n (mappedLayers h sign ls) mat c

/-- Geometric expansion of the upper bracket end, mirroring the
`while N_low * N_high > 0 and expand < 8` loop: the fuel argument counts the
remaining expansion attempts, `c_high` is multiplied by 9/5 (the float 1.8)
and its resultant re-evaluated on each attempt. -/
def expandHigh (Nf : ℚ → ℚ) (Nlow : ℚ) : ℕ → ℚ → ℚ → ℚ × ℚ
  | 0, chigh, Nhigh => (chigh, Nhigh)
  | k+1, chigh, Nhigh =>
    if Nlow * Nhigh > 0 then
      expandHigh Nf Nlow k (chigh * (9/5)) (Nf (chigh * (9/5)))
    else (chigh, Nhigh)

/-- Upper bracket end after the expansion phase, starting from `3*h` with up
to 8 attempts, exactly as `mrd_fibers_rect` sets it up. -/
def expandedHigh (b h : ℚ) (n : ℕ) (ls : List SteelLayer) (mat : Materials)
    (sign : Sign) : ℚ :=
  (expandHigh (NfOf b h n ls mat sign) (NfOf b h n ls mat sign (1/1000)) 8
    (3*h) (NfOf b h n ls mat sign (3*h))).1

/-- Bisection loop of `mrd_fibers_rect`.  The fuel argument is the remaining
iteration count (`itmax` at the top call); the result is `none` when no
iteration ran (Python leaves `c = None`), and otherwise the final value of
`c` paired with a flag recording whether the loop exited through the
`abs(N_mid) < tol_N` break (true) or by exhausting the budget (false).
When the recursive call runs out of fuel the current midpoint is the last
one computed, matching the `c = c_mid` assignment ending each Python
iteration. -/
def bisect (Nf : ℚ → ℚ) (tol : ℚ) : ℕ → ℚ → ℚ → ℚ → Option (ℚ × Bool)
  | 0, _, _, _ => none
  | k+1, lo, hi, Nlo =>
    let mid := (lo + hi) / 2
    let Nmid := Nf mid
    if |Nmid| < tol then some (mid, true)
    else if Nlo * Nmid ≤ 0 then
      match bisect Nf tol k lo mid Nlo with
      | none => some (mid, false)
      | some r => some r
    else
      match bisect Nf tol k mid hi Nmid with
      | none => some (mid, false)
      | some r => some r

/-- The trace of midpoints the solver computes, written from the
specification's procedural description of the bisection: each iteration
records its midpoint, stops after the one meeting the tolerance, and
otherwise replaces the bracket end on the same side as `N_low`'s sign. -/
def midpointList (Nf : ℚ → ℚ) (tol : ℚ) : ℕ → ℚ → ℚ → ℚ → List ℚ
  | 0, _, _, _ => []
  | k+1, lo, hi, Nlo =>
    let mid := (lo + hi) / 2
    let Nmid := Nf mid
    if |Nmid| < tol then [mid]
    else if Nlo * Nmid ≤ 0 then mid :: midpointList Nf tol k lo mid Nlo
    else mid :: midpointList Nf tol k mid hi Nmid

/-- Signed force of one steel layer at depth `c`, recomputed exactly as in
the lever-arm loop of `mrd_fibers_rect` (curvature rebuilt from `c`). -/
def steelForceAt (mat : Materials) (c : ℚ) (sl : SteelLayer) : ℚ :=
  sigma_s_bilineal ((mat.eps_cu2 / max c (1/1000000)) * (c - sl.y_mm))
    mat.Es_MPa mat.fyd * sl.As_mm2

/-- Sum of the magnitudes of the tensile (negative) steel forces at depth
`c`, the `T_abs` accumulator of `mrd_fibers_rect`. -/
def tensionSum (mat : Materials) (c : ℚ) (layers : List SteelLayer) : ℚ :=
  (layers.map (fun sl =>
    if steelForceAt mat c sl < 0 then -steelForceAt mat c sl else 0)).sum

/-- Post-processing of a solved depth `c`: recompute the resultants, take
`MRd = |M| / 1e6`, and form the informative lever arm `|M| / T_abs` when the
tension sum exceeds `1e-9`, else the NaN sentinel (`none`). -/
def finishAt (b h : ℚ) (n : ℕ) (layers : List SteelLayer) (mat : Materials)
    (c : ℚ) : ℚ × ℚ × Option ℚ :=
  let M_eq := (section_resultants b h n layers mat c).2.1
  let T_abs := tensionSum mat c layers
  (|M_eq| / 1000000, c,
    if T_abs > 1/1000000000 then some (|M_eq| / T_abs) else none)

/-- Capacity evaluation, mirroring `mrd_fibers_rect`: map the layers for the
selected sign, bracket `[1e-3, 3h]`, expand the upper end, bisect, and
post-process the solved depth.  `none` models the raising executions
(slice count 0, or iteration budget 0). -/
def mrd_fibers_rect (b h : ℚ) (steel_layers : List SteelLayer)
    (mat : Materials) (n : ℕ) (sign : Sign) (tol_N : ℚ) (itmax : ℕ) :
    Option (ℚ × ℚ × Option ℚ) :=
  if n = 0 then none
  else
    (bisect (NfOf b h n steel_layers mat sign) tol_N itmax (1/1000)
      (expandedHigh b h n steel_layers mat sign)
      (NfOf b h n steel_layers mat sign (1/1000))).map
      (fun p => finishAt b h n (mappedLayers h sign steel_layers) mat p.1)

/-- First component of the returned triple: MRd in kN·m. -/
def mrdValue (b h : ℚ) (steel_layers : List SteelLayer) (mat : Materials)
    (n : ℕ) (sign : Sign) (tol_N : ℚ) (itmax : ℕ) : Option ℚ :=
  (mrd_fibers_rect b h steel_layers mat n sign tol_N itmax).map (fun r => r.1)

/-- Second component of the returned triple: the solved depth c in mm. -/
def solvedDepth (b h : ℚ) (steel_layers : List SteelLayer) (mat : Materials)
    (n : ℕ) (sign : Sign) (tol_N : ℚ) (itmax : ℕ) : Option ℚ :=
  (mrd_fibers_rect b h steel_layers mat n sign tol_N itmax).map (fun r => r.2.1)

/-- Third component of the returned triple: the informative lever arm. -/
def solvedZ (b h : ℚ) (steel_layers : List SteelLayer) (mat : Materials)
    (n : ℕ) (sign : Sign) (tol_N : ℚ) (itmax : ℕ) : Option (Option ℚ) :=
  (mrd_fibers_rect b h steel_layers mat n sign tol_N itmax).map (fun r => r.2.2)

/-- Pure reflection of the steel layers about mid-height. -/
def reflectLayers (h : ℚ) (ls : List SteelLayer) : List SteelLayer :=
  ls.map (fun sl => SteelLayer.mk (h - sl.y_mm) sl.As_mm2)

/-- No steel layer is in tension (negative force) at depth `c`. -/
def noTension (mat : Materials) (c : ℚ) (layers : List SteelLayer) : Prop :=
  ∀ sl ∈ layers, 0 ≤ steelForceAt mat c sl

/-! ### Helper lemmas -/

/-- Bridge between the list-based slice sum of the embedding and the
indexed sum of the reference integrator. -/
lemma sum_map_range (f : ℕ → ℚ) (n : ℕ) :
    ((List.range n).map f).sum = Finset.sum (Finset.range n) f := by
  induction n with
  | zero => simp
  | succ k ih => rw [List.range_succ, Finset.sum_range_succ, List.map_append,
      List.sum_append, ih]; simp

lemma expandHigh_pos_le (Nf : ℚ → ℚ) (Nlo : ℚ) :
    ∀ (k : ℕ) (hi Nhi B : ℚ), 0 < hi → hi * (9/5)^k ≤ B →
      0 < (expandHigh Nf Nlo k hi Nhi).1 ∧ (expandHigh Nf Nlo k hi Nhi).1 ≤ B := by
  intro k
  induction k with
  | zero =>
    intro hi Nhi B hpos hle
    simpa [expandHigh] using ⟨hpos, by simpa using hle⟩
  | succ k ih =>
    intro hi Nhi B hpos hle
    rw [expandHigh]
    split
    · refine ih (hi * (9/5)) (Nf (hi * (9/5))) B (by positivity) ?_
      calc hi * (9/5) * (9/5)^k = hi * (9/5)^(k+1) := by ring
        _ ≤ B := hle
    · refine ⟨hpos, le_trans ?_ hle⟩
      have h1 : (1:ℚ) ≤ (9/5)^(k+1) := one_le_pow₀ (by norm_num)
      nlinarith

lemma bisect_isSome (Nf : ℚ → ℚ) (tol : ℚ) (k : ℕ) (hk : k ≠ 0)
    (lo hi Nlo : ℚ) : (bisect Nf tol k lo hi Nlo).isSome := by
  cases k with
  | zero => exact absurd rfl hk
  | succ k =>
    rw [bisect]
    split
    · rfl
    · split
      · cases hb : bisect Nf tol k lo ((lo + hi) / 2) Nlo <;> simp [hb]
      · cases hb : bisect Nf tol k ((lo + hi) / 2) hi (Nf ((lo + hi) / 2)) <;>
          simp [hb]

lemma bisect_met (Nf : ℚ → ℚ) (tol : ℚ) :
    ∀ (k : ℕ) (lo hi Nlo c : ℚ),
      bisect Nf tol k lo hi Nlo = some (c, true) → |Nf c| < tol := by
  intro k
  induction k with
  | zero => intro lo hi Nlo c h; simp [bisect] at h
  | succ k ih =>
    intro lo hi Nlo c h
    rw [bisect] at h
    split at h
    · obtain ⟨h1, h2⟩ := Prod.mk.injEq .. ▸ Option.some.injEq .. ▸ h
      subst h1
      assumption
    · split at h
      · cases hb : bisect Nf tol k lo ((lo + hi) / 2) Nlo <;> rw [hb] at h
        · simp at h
        · obtain rfl : _ = (c, true) := Option.some.injEq .. ▸ h
          exact ih _ _ _ _ hb
      · cases hb : bisect Nf tol k ((lo + hi) / 2) hi (Nf ((lo + hi) / 2)) <;>
          rw [hb] at h
        · simp at h
        · obtain rfl : _ = (c, true) := Option.some.injEq .. ▸ h
          exact ih _ _ _ _ hb

lemma bisect_map_fst (Nf : ℚ → ℚ) (tol : ℚ) :
    ∀ (k : ℕ) (lo hi Nlo : ℚ),
      (bisect Nf tol k lo hi Nlo).map Prod.fst
        = (midpointList Nf tol k lo hi Nlo).getLast? := by
  intro k
  induction k with
  | zero => intro lo hi Nlo; simp [bisect, midpointList]
  | succ k ih =>
    intro lo hi Nlo
    rw [bisect, midpointList]
    split
    · rfl
    · split
      · cases hb : bisect Nf tol k lo ((lo + hi) / 2) Nlo
        · have hm := (ih lo ((lo + hi) / 2) Nlo).symm
          rw [hb] at hm
          rcases hl : midpointList Nf tol k lo ((lo + hi) / 2) Nlo with _ | ⟨a, t⟩
          · simp
          · rw [hl] at hm; simp at hm
        · have hm := (ih lo ((lo + hi) / 2) Nlo).symm
          rw [hb] at hm
          rcases hl : midpointList Nf tol k lo ((lo + hi) / 2) Nlo with _ | ⟨a, t⟩
          · rw [hl] at hm; simp at hm
          · rw [hl] at hm
            rw [List.getLast?_cons_cons]
            rw [← hm]
      · cases hb : bisect Nf tol k ((lo + hi) / 2) hi (Nf ((lo + hi) / 2))
        · have hm := (ih ((lo + hi) / 2) hi (Nf ((lo + hi) / 2))).symm
          rw [hb] at hm
          rcases hl : midpointList Nf tol k ((lo + hi) / 2) hi (Nf ((lo + hi) / 2))
            with _ | ⟨a, t⟩
          · simp
          · rw [hl] at hm; simp at hm
        · have hm := (ih ((lo + hi) / 2) hi (Nf ((lo + hi) / 2))).symm
          rw [hb] at hm
          rcases hl : midpointList Nf tol k ((lo + hi) / 2) hi (Nf ((lo + hi) / 2))
            with _ | ⟨a, t⟩
          · rw [hl] at hm; simp at hm
          · rw [hl] at hm
            rw [List.getLast?_cons_cons]
            rw [← hm]

lemma bisect_bounds (Nf : ℚ → ℚ) (tol : ℚ) :
    ∀ (k : ℕ) (lo hi Nlo c : ℚ) (m : Bool) (B : ℚ), 0 < lo → 0 < hi →
      lo ≤ B → hi ≤ B → bisect Nf tol k lo hi Nlo = some (c, m) →
      0 < c ∧ c ≤ B := by
  intro k
  induction k with
  | zero => intro lo hi Nlo c m B _ _ _ _ h; simp [bisect] at h
  | succ k ih =>
    intro lo hi Nlo c m B hlo hhi hloB hhiB h
    have hmidpos : 0 < (lo + hi) / 2 := by linarith
    have hmidB : (lo + hi) / 2 ≤ B := by linarith
    rw [bisect] at h
    split at h
    · obtain ⟨h1, _⟩ := Prod.mk.injEq .. ▸ Option.some.injEq .. ▸ h
      subst h1
      exact ⟨hmidpos, hmidB⟩
    · split at h
      · cases hb : bisect Nf tol k lo ((lo + hi) / 2) Nlo <;> rw [hb] at h
        · obtain ⟨h1, _⟩ := Prod.mk.injEq .. ▸ Option.some.injEq .. ▸ h
          subst h1
          exact ⟨hmidpos, hmidB⟩
        · obtain rfl : _ = (c, m) := Option.some.injEq .. ▸ h
          exact ih _ _ _ _ _ _ hlo hmidpos hloB hmidB hb
      · cases hb : bisect Nf tol k ((lo + hi) / 2) hi (Nf ((lo + hi) / 2)) <;>
          rw [hb] at h
        · obtain ⟨h1, _⟩ := Prod.mk.injEq .. ▸ Option.some.injEq .. ▸ h
          subst h1
          exact ⟨hmidpos, hmidB⟩
        · obtain rfl : _ = (c, m) := Option.some.injEq .. ▸ h
          exact ih _ _ _ _ _ _ hmidpos hhi hmidB hhiB hb

lemma solvedDepth_eq_getLast (b h tol : ℚ) (ls : List SteelLayer)
    (mat : Materials) (sign : Sign) (n itmax : ℕ) (hn : n ≠ 0) :
    solvedDepth b h ls mat n sign tol itmax
      = (bisect (NfOf b h n ls mat sign) tol itmax (1/1000)
          (expandedHigh b h n ls mat sign)
          (NfOf b h n ls mat sign (1/1000))).map Prod.fst := by
  rw [solvedDepth, mrd_fibers_rect, if_neg hn, Option.map_map]
  rfl

lemma tensionSum_eq_zero (mat : Materials) (c : ℚ) (layers : List SteelLayer)
    (h : ∀ sl ∈ layers, 0 ≤ steelForceAt mat c sl) :
    tensionSum mat c layers = 0 := by
  induction layers with
  | nil => rfl
  | cons a t ih =>
    rw [tensionSum, List.map_cons, List.sum_cons,
      if_neg (not_lt.mpr (h a (List.mem_cons_self a t)))]
    rw [tensionSum] at ih
    rw [ih fun sl hsl => h sl (List.mem_cons_of_mem a hsl)]
    ring

/-! ### Claim theorems -/

/-- C2: the concrete stress law equals the piecewise reference definition;
for positive design strength and 0 < eps_c2 < eps_cu2 it returns exactly
fcd at eps_c2 and at eps_cu2, is strictly between 0 and fcd on (0, eps_c2),
is non-negative everywhere, and vanishes outside (0, eps_cu2]. -/
theorem claim_C2_concrete_law (fcd e2 ecu s : ℚ)
    (hfcd : 0 < fcd) (he2 : 0 < e2) (hcu : e2 < ecu) :
    sigma_c_ec2 s fcd e2 ecu = sigma_c_specLaw s fcd e2 ecu ∧
    sigma_c_ec2 e2 fcd e2 ecu = fcd ∧
    sigma_c_ec2 ecu fcd e2 ecu = fcd ∧
    (0 < s → s < e2 →
      0 < sigma_c_ec2 s fcd e2 ecu ∧ sigma_c_ec2 s fcd e2 ecu < fcd) ∧
    0 ≤ sigma_c_ec2 s fcd e2 ecu ∧
    (s ≤ 0 → sigma_c_ec2 s fcd e2 ecu = 0) ∧
    (ecu < s → sigma_c_ec2 s fcd e2 ecu = 0) := by
  refine ⟨?_, ?_, ?_, ?_, ?_, ?_, ?_⟩
  · simp [sigma_c_ec2, sigma_c_specLaw]
  · rw [sigma_c_ec2, if_neg (not_le.mpr he2), if_pos le_rfl]
    rw [div_self (ne_of_gt he2)]
    ring
  · have h0 : 0 < ecu := lt_trans he2 hcu
    rw [sigma_c_ec2, if_neg (not_le.mpr h0), if_neg (not_le.mpr hcu),
      if_pos le_rfl]
  · intro hs1 hs2
    rw [sigma_c_ec2, if_neg (not_le.mpr hs1), if_pos (le_of_lt hs2)]
    have hq1 : 0 < s / e2 := div_pos hs1 he2
    have hq2 : s / e2 < 1 := (div_lt_one he2).mpr hs2
    constructor
    · show 0 < fcd * (1 - (1 - s / e2)^2)
      nlinarith [mul_pos (mul_pos hfcd hq1) (show 0 < 2 - s / e2 by linarith)]
    · show fcd * (1 - (1 - s / e2)^2) < fcd
      nlinarith [mul_pos hfcd (mul_pos (show 0 < 1 - s / e2 by linarith)
        (show 0 < 1 - s / e2 by linarith))]
  · rw [sigma_c_ec2]
    split
    · exact le_rfl
    · split
      · rename_i h1 h2
        have hq1 : 0 < s / e2 := div_pos (not_le.mp h1) he2
        have hq2 : s / e2 ≤ 1 := (div_le_one he2).mpr h2
        show 0 ≤ fcd * (1 - (1 - s / e2)^2)
        nlinarith [mul_nonneg (mul_nonneg (le_of_lt hfcd) (le_of_lt hq1))
          (show (0:ℚ) ≤ 2 - s / e2 by linarith)]
      · split
        · exact le_of_lt hfcd
        · exact le_rfl
  · intro hs
    rw [sigma_c_ec2, if_pos hs]
  · intro hs
    have h1 : ¬ s ≤ 0 := not_le.mpr (lt_trans (lt_trans he2 hcu) hs)
    have h2 : ¬ s ≤ e2 := not_le.mpr (lt_trans hcu hs)
    have h3 : ¬ s ≤ ecu := not_le.mpr hs
    rw [sigma_c_ec2, if_neg h1, if_neg h2, if_neg h3]

/-- Witness for C2 at fcd = 17, eps_c2 = 1/500, eps_cu2 = 7/2000,
strain s = 1/1000. -/
theorem claim_C2_concrete_law_witness :
    (0 < (17:ℚ) ∧ 0 < (1/500:ℚ) ∧ (1/500:ℚ) < 7/2000) ∧
    (sigma_c_ec2 (1/1000) 17 (1/500) (7/2000)
        = sigma_c_specLaw (1/1000) 17 (1/500) (7/2000) ∧
      sigma_c_ec2 (1/500) 17 (1/500) (7/2000) = 17 ∧
      sigma_c_ec2 (7/2000) 17 (1/500) (7/2000) = 17 ∧
      (0 < (1/1000:ℚ) → (1/1000:ℚ) < 1/500 →
        0 < sigma_c_ec2 (1/1000) 17 (1/500) (7/2000) ∧
        sigma_c_ec2 (1/1000) 17 (1/500) (7/2000) < 17) ∧
      0 ≤ sigma_c_ec2 (1/1000) 17 (1/500) (7/2000) ∧
      ((1/1000:ℚ) ≤ 0 → sigma_c_ec2 (1/1000) 17 (1/500) (7/2000) = 0) ∧
      ((7/2000:ℚ) < 1/1000 → sigma_c_ec2 (1/1000) 17 (1/500) (7/2000) = 0)) :=
  ⟨⟨by norm_num, by norm_num, by norm_num⟩,
    claim_C2_concrete_law 17 (1/500) (7/2000) (1/1000)
      (by norm_num) (by norm_num) (by norm_num)⟩

/-- C3: the steel law is clipped elasticity: it returns Es·strain whenever
|Es·strain| ≤ fyd, its magnitude never exceeds fyd (for fyd ≥ 0), and it is
odd. -/
theorem claim_C3_steel_law (Es fyd s : ℚ) (hfyd : 0 ≤ fyd) :
    (|Es * s| ≤ fyd → sigma_s_bilineal s Es fyd = Es * s) ∧
    |sigma_s_bilineal s Es fyd| ≤ fyd ∧
    sigma_s_bilineal (-s) Es fyd = -sigma_s_bilineal s Es fyd := by
  refine ⟨?_, ?_, ?_⟩
  · intro hle
    obtain ⟨h1, h2⟩ := abs_le.mp hle
    rw [sigma_s_bilineal]
    simp only [if_neg (not_lt.mpr h2), if_neg (not_lt.mpr h1)]
  · rw [sigma_s_bilineal]
    split_ifs with h1 h2
    · rw [abs_of_nonneg hfyd]
    · rw [abs_neg, abs_of_nonneg hfyd]
    · exact abs_le.mpr ⟨not_lt.mp h2, not_lt.mp h1⟩
  · simp only [sigma_s_bilineal, mul_neg]
    split_ifs <;> linarith

/-- Witness for C3 at Es = 200000, fyd = 10000/23, s = 1/1000. -/
theorem claim_C3_steel_law_witness :
    (0 ≤ (10000/23:ℚ)) ∧
    ((|(200000:ℚ) * (1/1000)| ≤ 10000/23 →
        sigma_s_bilineal (1/1000) 200000 (10000/23) = 200000 * (1/1000)) ∧
      |sigma_s_bilineal (1/1000) 200000 (10000/23)| ≤ 10000/23 ∧
      sigma_s_bilineal (-(1/1000)) 200000 (10000/23)
        = -sigma_s_bilineal (1/1000) 200000 (10000/23)) :=
  ⟨by norm_num, claim_C3_steel_law 200000 (10000/23) (1/1000) (by norm_num)⟩

/-- C4: with slice count n ≥ 1 the integrator discretizes the concrete into
exactly n slices centered at (i+0.5)·h/n and equals the reference
definition summing the concrete slice forces and the steel layer forces,
with moments about the compression edge y = 0. -/
theorem claim_C4_integrator_matches_reference (b h : ℚ) (n : ℕ)
    (layers : List SteelLayer) (mat : Materials) (c : ℚ) (hn : 1 ≤ n) :
    (y_centers h n).length = n ∧
    section_resultants b h n layers mat c
      = sectionResultantsSpec b h n layers mat c := by
  constructor
  · rw [y_centers, List.length_map, List.length_range]
  · rw [section_resultants, sectionResultantsSpec, y_centers, List.map_map,
      List.map_map]
    rw [sum_map_range, sum_map_range]
    rfl

/-- Witness for C4 on a one-slice section with one steel layer. -/
theorem claim_C4_integrator_matches_reference_witness :
    1 ≤ 1 ∧
    ((y_centers 100 1).length = 1 ∧
      section_resultants 100 100 1 [SteelLayer.mk 100 100] defaultMaterials 50
        = sectionResultantsSpec 100 100 1 [SteelLayer.mk 100 100]
            defaultMaterials 50) :=
  ⟨le_rfl, claim_C4_integrator_matches_reference 100 100 1
    [SteelLayer.mk 100 100] defaultMaterials 50 le_rfl⟩

/-- C9: the compress-top selection leaves the layer list unchanged, and the
compress-bottom evaluation coincides with the compress-top evaluation of a
fresh reflected copy of the layers (ordinate y replaced by h - y, areas
kept); the caller's list itself is never modified, the evaluation only
builds the mapped copy. -/
theorem claim_C9_sign_reflection (b h tol : ℚ) (ls : List SteelLayer)
    (mat : Materials) (n itmax : ℕ) :
    mappedLayers h Sign.positivo ls = ls ∧
    mrd_fibers_rect b h ls mat n Sign.negativo tol itmax
      = mrd_fibers_rect b h (reflectLayers h ls) mat n Sign.positivo tol itmax := by
  have hpos : ∀ ms : List SteelLayer, mappedLayers h Sign.positivo ms = ms := by
    intro ms
    rw [mappedLayers]
    simp [mapY]
  have hL : mappedLayers h Sign.negativo ls
      = mappedLayers h Sign.positivo (reflectLayers h ls) := by
    rw [hpos (reflectLayers h ls), mappedLayers, reflectLayers]
    simp [mapY]
  have hNf : NfOf b h n ls mat Sign.negativo
      = NfOf b h n (reflectLayers h ls) mat Sign.positivo := by
    funext c
    rw [NfOf, NfOf, hL]
  refine ⟨hpos ls, ?_⟩
  rw [mrd_fibers_rect, mrd_fibers_rect, expandedHigh, expandedHigh, hNf, hL]

/-- C5 (amended to iteration budgets ≥ 1): with a non-zero slice count and a
non-zero iteration budget, the evaluation returns a result whose depth is
the last midpoint of the bisection trace started on the bracket
[1e-3, expanded 3h]. -/
theorem claim_C5_returns_last_midpoint (b h tol : ℚ) (ls : List SteelLayer)
    (mat : Materials) (sign : Sign) (n itmax : ℕ) (hn : n ≠ 0) (hit : itmax ≠ 0) :
    (mrd_fibers_rect b h ls mat n sign tol itmax).isSome ∧
    solvedDepth b h ls mat n sign tol itmax
      = (midpointList (NfOf b h n ls mat sign) tol itmax (1/1000)
          (expandedHigh b h n ls mat sign)
          (NfOf b h n ls mat sign (1/1000))).getLast? := by
  constructor
  · rw [mrd_fibers_rect, if_neg hn]
    have hs := bisect_isSome (NfOf b h n ls mat sign) tol itmax hit (1/1000)
      (expandedHigh b h n ls mat sign) (NfOf b h n ls mat sign (1/1000))
    cases hb : bisect (NfOf b h n ls mat sign) tol itmax (1/1000)
      (expandedHigh b h n ls mat sign) (NfOf b h n ls mat sign (1/1000))
    · rw [hb] at hs; simp at hs
    · rfl
  · rw [solvedDepth_eq_getLast b h tol ls mat sign n itmax hn, bisect_map_fst]

/-- Witness for C5 on a concrete one-layer section with itmax = 1. -/
theorem claim_C5_returns_last_midpoint_witness :
    ((1:ℕ) ≠ 0) ∧
    ((mrd_fibers_rect 100 100 [SteelLayer.mk 100 100] defaultMaterials 1
        Sign.positivo (1/1000) 1).isSome ∧
      solvedDepth 100 100 [SteelLayer.mk 100 100] defaultMaterials 1
          Sign.positivo (1/1000) 1
        = (midpointList
            (NfOf 100 100 1 [SteelLayer.mk 100 100] defaultMaterials Sign.positivo)
            (1/1000) 1 (1/1000)
            (expandedHigh 100 100 1 [SteelLayer.mk 100 100] defaultMaterials
              Sign.positivo)
            (NfOf 100 100 1 [SteelLayer.mk 100 100] defaultMaterials Sign.positivo
              (1/1000))).getLast?) :=
  ⟨one_ne_zero, claim_C5_returns_last_midpoint 100 100 (1/1000)
    [SteelLayer.mk 100 100] defaultMaterials Sign.positivo 1 1
    one_ne_zero one_ne_zero⟩

/-- Counterexample to C5 as stated: the claim quantifies over every
iteration budget, but with itmax = 0 no midpoint is ever computed and the
code returns no depth at all (the Python original raises a TypeError when
the loop leaves c = None), modelled by the evaluation being none. -/
theorem claim_C5_counterexample :
    mrd_fibers_rect 100 100 [SteelLayer.mk 100 100] defaultMaterials 1
      Sign.positivo (1/1000) 0 = none := by
  rw [mrd_fibers_rect, if_neg one_ne_zero, bisect]
  rfl

/-- C1 (amended): whenever the bisection loop exits through its tolerance
test (flag true), the returned depth satisfies the equilibrium bound
|N(c*)| ≤ tol_N; budget exhaustion (flag false) carries no such guarantee
even for bracketable sections. -/
theorem claim_C1_equilibrium_amended (b h tol : ℚ) (ls : List SteelLayer)
    (mat : Materials) (sign : Sign) (n itmax : ℕ) (c : ℚ) (hn : n ≠ 0)
    (hmet : bisect (NfOf b h n ls mat sign) tol itmax (1/1000)
        (expandedHigh b h n ls mat sign)
        (NfOf b h n ls mat sign (1/1000)) = some (c, true)) :
    |NfOf b h n ls mat sign c| ≤ tol ∧
    solvedDepth b h ls mat n sign tol itmax = some c := by
  refine ⟨le_of_lt (bisect_met _ _ _ _ _ _ _ hmet), ?_⟩
  rw [solvedDepth_eq_getLast b h tol ls mat sign n itmax hn, hmet]
  rfl

/-- Witness for the amended C1: with tolerance 10^6 the first midpoint
meets the tolerance test and the returned depth carries the bound. -/
theorem claim_C1_equilibrium_amended_witness :
    ((1:ℕ) ≠ 0) ∧
    bisect (NfOf 100 100 1 [SteelLayer.mk 100 100] defaultMaterials Sign.positivo)
      1000000 1 (1/1000)
      (expandedHigh 100 100 1 [SteelLayer.mk 100 100] defaultMaterials
        Sign.positivo)
      (NfOf 100 100 1 [SteelLayer.mk 100 100] defaultMaterials Sign.positivo
        (1/1000)) = some (300001/2000, true) ∧
    (|NfOf 100 100 1 [SteelLayer.mk 100 100] defaultMaterials Sign.positivo
        (300001/2000)| ≤ 1000000 ∧
      solvedDepth 100 100 [SteelLayer.mk 100 100] defaultMaterials 1
        Sign.positivo 1000000 1 = some (300001/2000)) := by
  have hmet : bisect
      (NfOf 100 100 1 [SteelLayer.mk 100 100] defaultMaterials Sign.positivo)
      1000000 1 (1/1000)
      (expandedHigh 100 100 1 [SteelLayer.mk 100 100] defaultMaterials
        Sign.positivo)
      (NfOf 100 100 1 [SteelLayer.mk 100 100] defaultMaterials Sign.positivo
        (1/1000)) = some (300001/2000, true) := by
    norm_num [bisect, NfOf, netAxial, section_resultants, y_centers,
      mappedLayers, mapY, sigma_c_ec2, sigma_s_bilineal, Materials.fcd,
      Materials.fyd, defaultMaterials, expandedHigh, expandHigh, max_def,
      abs_eq_max_neg, List.range_succ]
  exact ⟨one_ne_zero, hmet, claim_C1_equilibrium_amended 100 100 1000000
    [SteelLayer.mk 100 100] defaultMaterials Sign.positivo 1 1 (300001/2000)
    one_ne_zero hmet⟩

/-- C8 (amended to iteration budgets ≥ 1): for non-zero slice count and
iteration budget the evaluation always produces a numeric result, and the
curvature division is guarded by clamping the trial depth to the floor
1e-6, which is strictly positive for every trial depth. -/
theorem claim_C8_totality_amended (b h tol c : ℚ) (ls : List SteelLayer)
    (mat : Materials) (sign : Sign) (n itmax : ℕ) (hb : 0 < b) (hh : 0 < h)
    (hn : n ≠ 0) (hit : itmax ≠ 0) :
    (mrd_fibers_rect b h ls mat n sign tol itmax).isSome ∧
    (section_resultants b h n ls mat c).2.2 = mat.eps_cu2 / max c (1/1000000) ∧
    (0:ℚ) < max c (1/1000000) := by
  refine ⟨?_, rfl, lt_max_of_lt_right (by norm_num)⟩
  rw [mrd_fibers_rect, if_neg hn]
  have hs := bisect_isSome (NfOf b h n ls mat sign) tol itmax hit (1/1000)
    (expandedHigh b h n ls mat sign) (NfOf b h n ls mat sign (1/1000))
  cases hb2 : bisect (NfOf b h n ls mat sign) tol itmax (1/1000)
    (expandedHigh b h n ls mat sign) (NfOf b h n ls mat sign (1/1000))
  · rw [hb2] at hs; simp at hs
  · rfl

/-- Witness for the amended C8 on a concrete section. -/
theorem claim_C8_totality_amended_witness :
    (0 < (100:ℚ) ∧ 0 < (200:ℚ) ∧ (1:ℕ) ≠ 0 ∧ (2:ℕ) ≠ 0) ∧
    ((mrd_fibers_rect 100 200 [SteelLayer.mk 150 100] defaultMaterials 1
        Sign.positivo (1/1000) 2).isSome ∧
      (section_resultants 100 200 1 [SteelLayer.mk 150 100] defaultMaterials
          (-5)).2.2 = defaultMaterials.eps_cu2 / max (-5) (1/1000000) ∧
      (0:ℚ) < max (-5) (1/1000000)) :=
  ⟨⟨by norm_num, by norm_num, one_ne_zero, two_ne_zero⟩,
    claim_C8_totality_amended 100 200 (1/1000) (-5) [SteelLayer.mk 150 100]
      defaultMaterials Sign.positivo 1 2 (by norm_num) (by norm_num)
      one_ne_zero two_ne_zero⟩

/-- Counterexample to C8 as stated: an iteration budget of 0 is accepted by
the interface, yet the Python code raises a TypeError (the bisection loop
never assigns c and section_resultants(None) faults), modelled by the
evaluation returning none instead of a numeric result. -/
theorem claim_C8_counterexample :
    0 < (50:ℚ) ∧ 0 < (100:ℚ) ∧
    mrd_fibers_rect 50 100 [SteelLayer.mk 90 100] defaultMaterials 1
      Sign.positivo (1/1000) 0 = none := by
  refine ⟨by norm_num, by norm_num, ?_⟩
  rw [mrd_fibers_rect, if_neg one_ne_zero, bisect]
  rfl

/-- C10 (amended): any returned depth is strictly positive and at most
max(1e-3, 3h·1.8⁸): the lower bracket end 1e-3 can itself exceed the
expanded upper end for very small heights, and the first midpoint then
exceeds 3h·1.8⁸. -/
theorem claim_C10_depth_range_amended (b h tol : ℚ) (ls : List SteelLayer)
    (mat : Materials) (sign : Sign) (n itmax : ℕ) (c : ℚ) (hh : 0 < h)
    (hc : solvedDepth b h ls mat n sign tol itmax = some c) :
    0 < c ∧ c ≤ max (1/1000) (3 * h * (9/5)^8) := by
  have hn : n ≠ 0 := by
    intro h0
    rw [solvedDepth, mrd_fibers_rect, if_pos h0] at hc
    simp at hc
  rw [solvedDepth_eq_getLast b h tol ls mat sign n itmax hn] at hc
  obtain ⟨⟨c2, m⟩, hb2, hc2⟩ := Option.map_eq_some'.mp hc
  have hc2' : c2 = c := hc2
  subst hc2'
  have hexp := expandHigh_pos_le (NfOf b h n ls mat sign)
    (NfOf b h n ls mat sign (1/1000)) 8 (3*h)
    (NfOf b h n ls mat sign (3*h)) (3 * h * (9/5)^8) (by linarith)
    (by ring_nf; exact le_rfl)
  exact bisect_bounds (NfOf b h n ls mat sign) tol itmax (1/1000)
    (expandedHigh b h n ls mat sign) (NfOf b h n ls mat sign (1/1000)) c2 m
    (max (1/1000) (3 * h * (9/5)^8)) (by norm_num) hexp.1 (le_max_left _ _)
    (le_trans hexp.2 (le_max_right _ _)) hb2

set_option maxHeartbeats 1600000 in
/-- Witness for the amended C10 on a concrete section. -/
theorem claim_C10_depth_range_amended_witness :
    (0 < (100:ℚ) ∧
      solvedDepth 100 100 [SteelLayer.mk 100 100] defaultMaterials 1
        Sign.positivo (1/1000) 1 = some (300001/2000)) ∧
    (0 < (300001/2000:ℚ) ∧
      (300001/2000:ℚ) ≤ max (1/1000) (3 * 100 * (9/5)^8)) := by
  have hc : solvedDepth 100 100 [SteelLayer.mk 100 100] defaultMaterials 1
      Sign.positivo (1/1000) 1 = some (300001/2000) := by
    norm_num [solvedDepth, mrd_fibers_rect, finishAt, tensionSum, steelForceAt,
      bisect, NfOf, netAxial, section_resultants, y_centers, mappedLayers,
      mapY, sigma_c_ec2, sigma_s_bilineal, Materials.fcd, Materials.fyd,
      defaultMaterials, expandedHigh, expandHigh, max_def, abs_eq_max_neg,
      List.range_succ]
  exact ⟨⟨by norm_num, hc⟩, claim_C10_depth_range_amended 100 100 (1/1000)
    [SteelLayer.mk 100 100] defaultMaterials Sign.positivo 1 1 (300001/2000)
    (by norm_num) hc⟩

set_option maxHeartbeats 3200000 in
/-- Counterexample to C10 as stated: for a very small height the returned
depth exceeds the claimed bound 3h·1.8⁸, because the initial lower bracket
end 1e-3 already lies above the fully expanded upper end. -/
theorem claim_C10_counterexample :
    0 < (1/1000000:ℚ) ∧
    solvedDepth 100 (1/1000000) [] defaultMaterials 1 Sign.positivo (1/1000) 1
      = some (519765163/781250000000) ∧
    ¬ ((519765163/781250000000:ℚ) ≤ 3 * (1/1000000) * (9/5)^8) := by
  refine ⟨by norm_num, ?_, by norm_num⟩
  norm_num [solvedDepth, mrd_fibers_rect, finishAt, tensionSum, steelForceAt,
    bisect, NfOf, netAxial, section_resultants, y_centers, mappedLayers,
    mapY, sigma_c_ec2, sigma_s_bilineal, Materials.fcd, Materials.fyd,
    defaultMaterials, expandedHigh, expandHigh, max_def, abs_eq_max_neg,
    List.range_succ]

/-- C6: at the solved depth the lever arm is |M*| divided by the sum T of
the tensile steel force magnitudes whenever T exceeds 1e-9, and it is the
NaN sentinel (none), not a crash or a finite garbage value, whenever no
steel layer is in tension there. -/
theorem claim_C6_lever_arm (b h tol : ℚ) (ls : List SteelLayer)
    (mat : Materials) (sign : Sign) (n itmax : ℕ) (m c : ℚ) (z : Option ℚ)
    (hres : mrd_fibers_rect b h ls mat n sign tol itmax = some (m, c, z)) :
    (noTension mat c (mappedLayers h sign ls) → z = none) ∧
    (1/1000000000 < tensionSum mat c (mappedLayers h sign ls) →
      z = some (|(section_resultants b h n (mappedLayers h sign ls) mat c).2.1|
        / tensionSum mat c (mappedLayers h sign ls))) := by
  by_cases hn : n = 0
  · rw [mrd_fibers_rect, if_pos hn] at hres
    exact absurd hres (by simp)
  rw [mrd_fibers_rect, if_neg hn] at hres
  obtain ⟨⟨c0, flag⟩, hb0, hfin⟩ := Option.map_eq_some'.mp hres
  simp only [finishAt] at hfin
  rw [Prod.mk.injEq, Prod.mk.injEq] at hfin
  obtain ⟨hm, hc, hz⟩ := hfin
  subst hc
  constructor
  · intro hnt
    have htz : tensionSum mat c0 (mappedLayers h sign ls) = 0 :=
      tensionSum_eq_zero mat c0 _ hnt
    rw [← hz, htz]
    norm_num
  · intro ht
    rw [← hz, if_pos ht]

set_option maxHeartbeats 1600000 in
/-- Witness for C6: with a huge tolerance the solver stops at depth
150.0005 mm, where the single steel layer (at ordinate 100 mm) is
compressed, so no layer is in tension and the lever arm is the sentinel. -/
theorem claim_C6_lever_arm_witness :
    mrd_fibers_rect 100 100 [SteelLayer.mk 100 100] defaultMaterials 1
      Sign.positivo 1000000000 1
      = some (6500031/600002, 300001/2000, none) ∧
    noTension defaultMaterials (300001/2000)
      (mappedLayers 100 Sign.positivo [SteelLayer.mk 100 100]) ∧
    ((noTension defaultMaterials (300001/2000)
        (mappedLayers 100 Sign.positivo [SteelLayer.mk 100 100]) →
      (none : Option ℚ) = none) ∧
      (1/1000000000 < tensionSum defaultMaterials (300001/2000)
          (mappedLayers 100 Sign.positivo [SteelLayer.mk 100 100]) →
        (none : Option ℚ) = some
          (|(section_resultants 100 100 1
              (mappedLayers 100 Sign.positivo [SteelLayer.mk 100 100])
              defaultMaterials (300001/2000)).2.1|
            / tensionSum defaultMaterials (300001/2000)
                (mappedLayers 100 Sign.positivo [SteelLayer.mk 100 100])))) := by
  have hres : mrd_fibers_rect 100 100 [SteelLayer.mk 100 100] defaultMaterials 1
      Sign.positivo 1000000000 1
      = some (6500031/600002, 300001/2000, none) := by
    norm_num [mrd_fibers_rect, finishAt, tensionSum, steelForceAt, bisect,
      NfOf, netAxial, section_resultants, y_centers, mappedLayers, mapY,
      sigma_c_ec2, sigma_s_bilineal, Materials.fcd, Materials.fyd,
      defaultMaterials, expandedHigh, expandHigh, max_def, abs_eq_max_neg,
      List.range_succ]
  have hnt : noTension defaultMaterials (300001/2000)
      (mappedLayers 100 Sign.positivo [SteelLayer.mk 100 100]) := by
    norm_num [noTension, steelForceAt, mappedLayers, mapY, sigma_s_bilineal,
      Materials.fyd, defaultMaterials, max_def]
  exact ⟨hres, hnt, claim_C6_lever_arm 100 100 1000000000
    [SteelLayer.mk 100 100] defaultMaterials Sign.positivo 1 1
    (6500031/600002) (300001/2000) none hres⟩

/-- C7 (amended): monotonicity holds at a fixed trial depth: increasing the
area of a layer whose stress at that depth is tensile (negative) never
decreases |M| there, provided the moment resultant is non-positive (the
hogging sign an equilibrated tension-controlled section has).  Through the
solver the property can fail, because the returned depth need not be in
equilibrium. -/
theorem claim_C7_monotonic_amended (b h c y a a2 : ℚ)
    (pre post : List SteelLayer) (mat : Materials) (n : ℕ)
    (hy : 0 ≤ y) (ha : a ≤ a2)
    (hsig : sigma_s_bilineal ((mat.eps_cu2 / max c (1/1000000)) * (c - y))
      mat.Es_MPa mat.fyd < 0)
    (hM : (section_resultants b h n (pre ++ SteelLayer.mk y a :: post)
      mat c).2.1 ≤ 0) :
    |(section_resultants b h n (pre ++ SteelLayer.mk y a :: post) mat c).2.1|
      ≤ |(section_resultants b h n (pre ++ SteelLayer.mk y a2 :: post)
          mat c).2.1| := by
  have key : ∀ A : ℚ,
      (section_resultants b h n (pre ++ SteelLayer.mk y A :: post) mat c).2.1
      = (section_resultants b h n (pre ++ post) mat c).2.1
        + sigma_s_bilineal ((mat.eps_cu2 / max c (1/1000000)) * (c - y))
            mat.Es_MPa mat.fyd * A * y := by
    intro A
    simp only [section_resultants, List.map_append, List.sum_append,
      List.map_cons, List.sum_cons]
    ring
  have hmono :
      (section_resultants b h n (pre ++ SteelLayer.mk y a2 :: post) mat c).2.1
      ≤ (section_resultants b h n (pre ++ SteelLayer.mk y a :: post)
          mat c).2.1 := by
    rw [key a, key a2]
    nlinarith [mul_nonneg (sub_nonneg.mpr ha) hy]
  rw [abs_of_nonpos hM, abs_of_nonpos (le_trans hmono hM)]
  linarith

/-- Witness for the amended C7: depth 50 mm, tension layer at 90 mm, areas
100 and 200 mm². -/
theorem claim_C7_monotonic_amended_witness :
    ((0:ℚ) ≤ 90 ∧ (100:ℚ) ≤ 200 ∧
      sigma_s_bilineal ((defaultMaterials.eps_cu2 / max 50 (1/1000000))
        * (50 - 90)) defaultMaterials.Es_MPa defaultMaterials.fyd < 0 ∧
      (section_resultants 100 100 1
        (([] : List SteelLayer) ++ SteelLayer.mk 90 100 :: [])
        defaultMaterials 50).2.1 ≤ 0) ∧
    |(section_resultants 100 100 1
        (([] : List SteelLayer) ++ SteelLayer.mk 90 100 :: [])
        defaultMaterials 50).2.1|
      ≤ |(section_resultants 100 100 1
          (([] : List SteelLayer) ++ SteelLayer.mk 90 200 :: [])
          defaultMaterials 50).2.1| := by
  have hsig : sigma_s_bilineal ((defaultMaterials.eps_cu2 / max 50 (1/1000000))
      * (50 - 90)) defaultMaterials.Es_MPa defaultMaterials.fyd < 0 := by
    norm_num [sigma_s_bilineal, defaultMaterials, Materials.fyd, max_def]
  have hM : (section_resultants 100 100 1
      (([] : List SteelLayer) ++ SteelLayer.mk 90 100 :: [])
      defaultMaterials 50).2.1 ≤ 0 := by
    norm_num [section_resultants, y_centers, sigma_c_ec2, sigma_s_bilineal,
      Materials.fcd, Materials.fyd, defaultMaterials, max_def,
      List.range_succ]
  exact ⟨⟨by norm_num, by norm_num, hsig, hM⟩,
    claim_C7_monotonic_amended 100 100 50 90 100 200 [] [] defaultMaterials 1
      (by norm_num) (by norm_num) hsig hM⟩

set_option maxHeartbeats 3200000 in
/-- Counterexample to C7 as stated: a bracketable one-layer section whose
layer is tensile at the solved depth, where raising the area from 100 to
100.5 mm² lowers the returned MRd (both runs return the same non-converged
depth 75.00075 mm, at which the moment resultant is positive, so the extra
tensile force reduces |M|). -/
theorem claim_C7_counterexample :
    mrd_fibers_rect 100 100 [SteelLayer.mk 90 100] defaultMaterials 1
      Sign.positivo 1000 2
      = some (83009938774427/14400288001440, 300003/4000,
          some (59292813410305/143994239928)) ∧
    mrd_fibers_rect 100 100 [SteelLayer.mk 90 (201/2)] defaultMaterials 1
      Sign.positivo 1000 2
      = some (2072980560081809/360007200036000, 300003/4000,
          some (1480700400058435/3617855278191)) ∧
    NfOf 100 100 1 [SteelLayer.mk 90 100] defaultMaterials Sign.positivo
      (1/1000) < 0 ∧
    0 < NfOf 100 100 1 [SteelLayer.mk 90 100] defaultMaterials Sign.positivo
      (3 * 100) ∧
    NfOf 100 100 1 [SteelLayer.mk 90 (201/2)] defaultMaterials Sign.positivo
      (1/1000) < 0 ∧
    0 < NfOf 100 100 1 [SteelLayer.mk 90 (201/2)] defaultMaterials
      Sign.positivo (3 * 100) ∧
    steelForceAt defaultMaterials (300003/4000) (SteelLayer.mk 90 100) < 0 ∧
    steelForceAt defaultMaterials (300003/4000) (SteelLayer.mk 90 (201/2)) < 0 ∧
    (100:ℚ) < 201/2 ∧
    (2072980560081809/360007200036000:ℚ) < 83009938774427/14400288001440 := by
  refine ⟨?_, ?_, ?_, ?_, ?_, ?_, ?_, ?_, by norm_num, by norm_num⟩
  · norm_num [mrd_fibers_rect, finishAt, tensionSum, steelForceAt, bisect,
      NfOf, netAxial, section_resultants, y_centers, mappedLayers, mapY,
      sigma_c_ec2, sigma_s_bilineal, Materials.fcd, Materials.fyd,
      defaultMaterials, expandedHigh, expandHigh, max_def, abs_eq_max_neg,
      List.range_succ]
  · norm_num [mrd_fibers_rect, finishAt, tensionSum, steelForceAt, bisect,
      NfOf, netAxial, section_resultants, y_centers, mappedLayers, mapY,
      sigma_c_ec2, sigma_s_bilineal, Materials.fcd, Materials.fyd,
      defaultMaterials, expandedHigh, expandHigh, max_def, abs_eq_max_neg,
      List.range_succ]
  · norm_num [NfOf, netAxial, section_resultants, y_centers, mappedLayers,
      mapY, sigma_c_ec2, sigma_s_bilineal, Materials.fcd, Materials.fyd,
      defaultMaterials, max_def, List.range_succ]
  · norm_num [NfOf, netAxial, section_resultants, y_centers, mappedLayers,
      mapY, sigma_c_ec2, sigma_s_bilineal, Materials.fcd, Materials.fyd,
      defaultMaterials, max_def, List.range_succ]
  · norm_num [NfOf, netAxial, section_resultants, y_centers, mappedLayers,
      mapY, sigma_c_ec2, sigma_s_bilineal, Materials.fcd, Materials.fyd,
      defaultMaterials, max_def, List.range_succ]
  · norm_num [NfOf, netAxial, section_resultants, y_centers, mappedLayers,
      mapY, sigma_c_ec2, sigma_s_bilineal, Materials.fcd, Materials.fyd,
      defaultMaterials, max_def, List.range_succ]
  · norm_num [steelForceAt, sigma_s_bilineal, Materials.fyd,
      defaultMaterials, max_def]
  · norm_num [steelForceAt, sigma_s_bilineal, Materials.fyd,
      defaultMaterials, max_def]

set_option maxHeartbeats 1600000 in
/-- Counterexample to C1 as stated: a bracketable section (the initial
bracket ends have N of opposite signs) for which the returned depth, after
the one-iteration budget is exhausted, violates |N(c*)| ≤ tol_N. -/
theorem claim_C1_counterexample :
    NfOf 100 100 1 [SteelLayer.mk 100 100] defaultMaterials Sign.positivo
      (1/1000) < 0 ∧
    0 < NfOf 100 100 1 [SteelLayer.mk 100 100] defaultMaterials Sign.positivo
      (3 * 100) ∧
    solvedDepth 100 100 [SteelLayer.mk 100 100] defaultMaterials 1
      Sign.positivo (1/1000) 1 = some (300001/2000) ∧
    ¬ (|NfOf 100 100 1 [SteelLayer.mk 100 100] defaultMaterials Sign.positivo
        (300001/2000)| ≤ 1/1000) := by
  refine ⟨?_, ?_, ?_, ?_⟩
  · norm_num [NfOf, netAxial, section_resultants, y_centers, mappedLayers,
      mapY, sigma_c_ec2, sigma_s_bilineal, Materials.fcd, Materials.fyd,
      defaultMaterials, max_def, List.range_succ]
  · norm_num [NfOf, netAxial, section_resultants, y_centers, mappedLayers,
      mapY, sigma_c_ec2, sigma_s_bilineal, Materials.fcd, Materials.fyd,
      defaultMaterials, max_def, List.range_succ]
  · norm_num [solvedDepth, mrd_fibers_rect, finishAt, tensionSum,
      steelForceAt, bisect, NfOf, netAxial, section_resultants, y_centers,
      mappedLayers, mapY, sigma_c_ec2, sigma_s_bilineal, Materials.fcd,
      Materials.fyd, defaultMaterials, expandedHigh, expandHigh, max_def,
      abs_eq_max_neg, List.range_succ]
  · norm_num [NfOf, netAxial, section_resultants, y_centers, mappedLayers,
      mapY, sigma_c_ec2, sigma_s_bilineal, Materials.fcd, Materials.fyd,
      defaultMaterials, max_def, abs_eq_max_neg, List.range_succ]
